import Mathlib

/-!
# Verification of `scripts/merge_leads.py`

Shallow embedding of the duplicate-lead detection and merging script.
The remote Close.io lead store is an external collaborator: remote search
responses are passed in explicitly (as the list of leads the store returned
for the issued query), and remote mutations are modelled as a trace of
merge calls that the functions emit.

Python strings are modelled as Lean `String` (Python `str.strip` as
`pyStrip`, `str.lower` as `pyLower`); Python sets of strings are
modelled as lists used only through membership; Python integers as `Int`
(or `Nat` for counters that never go negative).
-/

namespace MergeLeads

/-- The `--field` CLI choice: one of `company`, `email`, `phone`
(`choices=['company', 'email', 'phone']`). -/
inductive Comparator where
  | company
  | email
  | phone
deriving DecidableEq, Repr

/-- A contact of a lead. In the JSON each entry of `contacts[i].emails` is an
object `{type, email}` and each entry of `phones` is `{type, phone}`; we keep
just the element value string that the script reads (`e[comparator_field]`). -/
structure Contact where
  emails : List String
  phones : List String
deriving DecidableEq, Repr

/-- A lead as fetched with
`_fields = id,display_name,name,status_label,contacts,opportunities`.
`date_created` is the sort key of `sort:date_created` (never read by the
script itself, only used by the store for ordering). -/
structure Lead where
  id : String
  display_name : String
  name : String
  status_label : String
  contacts : List Contact
  opportunities : List String
  date_created : Nat
deriving DecidableEq, Repr

/-- Python `str.strip()`: drop leading and trailing whitespace. -/
def pyStrip (s : String) : String :=
  ⟨((s.data.dropWhile Char.isWhitespace).reverse.dropWhile Char.isWhitespace).reverse⟩

/-- Python `str.lower()`: lower-case every character. -/
def pyLower (s : String) : String :=
  ⟨s.data.map Char.toLower⟩

/-- The element values of one contact for a comparator field: `c['emails']`
values for `email`, `c['phones']` values for `phone`.  A company comparison
never reads contacts. -/
def contactElems (field : Comparator) (c : Contact) : List String :=
  match field with
  | .company => []
  | .email => c.emails
  | .phone => c.phones

/-- `search_values` (lines 83-89): `[lead['name']]` for company, otherwise the
list comprehension over all contacts' elements of the field. -/
def searchValuesOf (lead : Lead) (field : Comparator) : List String :=
  match field with
  | .company => [lead.name]
  | f => (lead.contacts.map (contactElems f)).flatten

/-- `lead_elems` (lines 93-96): the set of the lead's element values across
all contacts, modelled as a list used through membership. -/
def leadElems (field : Comparator) (lead : Lead) : List String :=
  (lead.contacts.map (contactElems field)).flatten

/-- The per-result test of the loop at lines 118-137: skip the original lead
by id; for company compare stripped+lowered names; otherwise accept iff the
set of the candidate's elements intersects the input lead's element set. -/
def isDuplicateMatch (lead : Lead) (field : Comparator) (l : Lead) : Bool :=
  if l.id == lead.id then
    false
  else
    match field with
    | .company => pyLower (pyStrip lead.name) == pyLower (pyStrip l.name)
    | f => (leadElems f lead).any (fun v => (leadElems f l).contains v)

/-- `find_duplicates_for_lead(lead, comparator_field)` (lines 71-142).
`results` is the concatenation of the pages the remote store returned for the
issued query (the pagination loop at lines 105-140 concatenates pages in
order).  If `search_values` is empty no query is issued and no duplicates are
returned (`if search_values:`); otherwise each returned lead is kept iff it
passes `isDuplicateMatch`, preserving store order. -/
def find_duplicates_for_lead (lead : Lead) (field : Comparator)
    (results : List Lead) : List Lead :=
  if (searchValuesOf lead field).isEmpty then
    []
  else
    results.filter (isDuplicateMatch lead field)

/-- One `POST lead/merge` request body (lines 153-156). -/
structure MergeCall where
  source : String
  destination : String
deriving DecidableEq, Repr

/-- The loop of `merge_lead` (lines 152-159): one merge request per source
lead, sequentially in list order. -/
def mergeLoop (destination_lead : Lead) : List Lead → List MergeCall
  | [] => []
  | source_lead :: rest =>
      ⟨source_lead.id, destination_lead.id⟩ :: mergeLoop destination_lead rest

/-- `merge_lead(destination_lead, duplicates)` (lines 145-159), returning the
trace of merge requests it issues.  Without `--confirmed` it returns at once
with no request issued. -/
def merge_lead (confirmed : Bool) (destination_lead : Lead)
    (duplicates : List Lead) : List MergeCall :=
  if !confirmed then
    []
  else
    mergeLoop destination_lead duplicates

/-! ## Query-string construction (lines 99-102)

The query value list is built by `', '.join('"%s"' % val.encode('utf-8') for
val in search_values)`: each value is interpolated verbatim between double
quotes (the UTF-8 encode is the identity on the character content) and the
quoted tokens are joined with `", "`.  We model the character-level
construction on `List Char`. -/

/-- `'"%s"' % val`: the value's characters placed verbatim between two double
quotes, with no escaping. -/
def quoteVal (v : List Char) : List Char :=
  '"' :: v ++ ['"']

/-- Python's `sep.join(parts)`. -/
def joinSep (sep : List Char) : List (List Char) → List Char
  | [] => []
  | [x] => x
  | x :: y :: rest => x ++ sep ++ joinSep sep (y :: rest)

/-- The `(v1, v2, ...)` value list of the issued query:
`', '.join('"%s"' % val for val in search_values)`. -/
def queryValues (vals : List (List Char)) : List Char :=
  joinSep [',', ' '] (vals.map quoteVal)

/-- A reader of one double-quoted token, as the remote query parser must read
it: the content is everything up to the first closing double quote.  Returns
the denoted value, or none if the token is not quote-delimited. -/
def readQuoted : List Char → Option (List Char)
  | '"' :: rest =>
      if '"' ∈ rest then some (rest.takeWhile (fun c => c != '"')) else none
  | _ => none

/-! ## The full-dataset walker (`__main__`, lines 162-218)

One page of the main `while has_more` loop: the per-page state consists of
`leads_merged_this_page` (line 176), the `duplicates_this_page` id set
(line 177, a Python set modelled as a list used through membership, union as
append), the run counter `total_leads_merged`, plus the observable traces:
the merge requests issued and the leads for which `find_duplicates_for_lead`
was invoked.  The remote search responses are supplied by
`search : Lead → List Lead`, giving the pages the store returns for the
query issued for that lead. -/

structure PageState where
  leads_merged_this_page : Nat
  duplicates_this_page : List String
  total_leads_merged : Nat
  mergeCalls : List MergeCall
  finderCalls : List String
deriving DecidableEq, Repr

/-- The body of `for idx, lead in enumerate(leads)` (lines 186-203): skip a
lead already in `duplicates_this_page`; otherwise find its duplicates, add
their ids to `duplicates_this_page`, and if any were found merge them into
this lead and count `len(duplicates) + 1` merged leads this page. -/
def processLead (search : Lead → List Lead) (field : Comparator)
    (confirmed : Bool) (st : PageState) (lead : Lead) : PageState :=
  if st.duplicates_this_page.contains lead.id then
    st
  else
    let dups := find_duplicates_for_lead lead field (search lead)
    let dupIds := st.duplicates_this_page ++ dups.map Lead.id
    if dups.isEmpty then
      ⟨st.leads_merged_this_page, dupIds, st.total_leads_merged,
       st.mergeCalls, st.finderCalls ++ [lead.id]⟩
    else
      ⟨st.leads_merged_this_page + dups.length + 1, dupIds,
       st.total_leads_merged + 1,
       st.mergeCalls ++ merge_lead confirmed lead dups,
       st.finderCalls ++ [lead.id]⟩

/-- The page-scoped state at the top of each `while has_more` iteration:
`leads_merged_this_page = 0`, `duplicates_this_page = set()` (lines 176-177),
and empty traces. -/
def initPageState : PageState :=
  ⟨0, [], 0, [], []⟩

/-- Processing of one fetched page `leads` (lines 175-203). -/
def processPage (search : Lead → List Lead) (field : Comparator)
    (confirmed : Bool) (pageLeads : List Lead) : PageState :=
  pageLeads.foldl (processLead search field confirmed) initPageState

/-- The offset update of line 213:
`offset += max(0, len(leads) - leads_merged_this_page)`. -/
def advanceOffset (offset : Int) (pageLen : Nat) (merged : Nat) : Int :=
  offset + max 0 ((pageLen : Int) - (merged : Int))

/-! ## Concrete data used by counterexamples and witnesses -/

/-- A lead with only a company name: id and display name `toString i`,
company `"acme"` for the first three, a unique name otherwise. -/
def mkSimpleLead (i : Nat) : Lead :=
  ⟨toString i, toString i, if i < 3 then "acme" else toString i, "", [], [], i⟩

/-- A full page of 50 leads, of which exactly leads 0, 1, 2 share the
company name `"acme"`. -/
def page50 : List Lead :=
  (List.range 50).map mkSimpleLead

/-- Store responses for `page50`: the store returns every lead whose company
name equals the queried one. -/
def search50 : Lead → List Lead :=
  fun lead => page50.filter (fun l => l.name == lead.name)

/-- `Acme Inc`: created first, no opportunities. -/
def leadA : Lead :=
  ⟨"a", "Acme Inc", "Acme Inc", "", [], [], 0⟩

/-- `ACME INC ` (same company up to case and whitespace): created second,
holds one opportunity. -/
def leadB : Lead :=
  ⟨"b", "ACME INC ", "ACME INC ", "", [], ["oppo_b"], 1⟩

/-- Store responses for the two-lead dataset `[leadA, leadB]`. -/
def searchAB : Lead → List Lead :=
  fun _ => [leadA, leadB]

/-- Lead with one contact holding email `a@x.com`. -/
def leadC : Lead :=
  ⟨"c", "C Co", "C Co", "", [⟨["a@x.com"], []⟩], [], 0⟩

/-- Lead with one contact holding emails `a@x.com` and `b@x.com`. -/
def leadD : Lead :=
  ⟨"d", "D Co", "D Co", "", [⟨["a@x.com", "b@x.com"], []⟩], [], 1⟩

/-! ## Helper lemmas -/

/-- Membership in the duplicates returned for a company comparison: exactly
the store results with a different id and the same stripped, lowered
company name. -/
theorem mem_find_duplicates_company (lead l : Lead) (results : List Lead) :
    l ∈ find_duplicates_for_lead lead .company results ↔
      l ∈ results ∧ l.id ≠ lead.id ∧
        pyLower (pyStrip l.name) = pyLower (pyStrip lead.name) := by
  have hmatch : ∀ x : Lead, isDuplicateMatch lead .company x =
      (!(x.id == lead.id) &&
        (pyLower (pyStrip lead.name) == pyLower (pyStrip x.name))) := by
    intro x
    unfold isDuplicateMatch
    cases hid : x.id == lead.id
    · rfl
    · rfl
  have hguard : (searchValuesOf lead .company).isEmpty = false := rfl
  unfold find_duplicates_for_lead
  rw [hguard]
  simp only [Bool.false_eq_true, if_false]
  rw [List.mem_filter, hmatch l, Bool.and_eq_true, Bool.not_eq_true',
    beq_eq_false_iff_ne, beq_iff_eq]
  constructor
  · rintro ⟨h1, h2, h3⟩
    exact ⟨h1, h2, h3.symm⟩
  · rintro ⟨h1, h2, h3⟩
    exact ⟨h1, h2, h3.symm⟩

/-- Membership in the duplicates returned for an email or phone comparison:
exactly the store results with a different id and at least one shared
element value. -/
theorem mem_find_duplicates_elems (lead l : Lead) (field : Comparator)
    (hf : field ≠ .company) (results : List Lead) :
    l ∈ find_duplicates_for_lead lead field results ↔
      l ∈ results ∧ l.id ≠ lead.id ∧
        ∃ v ∈ leadElems field lead, v ∈ leadElems field l := by
  have hsv : searchValuesOf lead field = leadElems field lead := by
    cases field with
    | company => exact absurd rfl hf
    | email => rfl
    | phone => rfl
  have hmatch : ∀ x : Lead, isDuplicateMatch lead field x =
      (!(x.id == lead.id) &&
        (leadElems field lead).any (fun v => (leadElems field x).contains v)) := by
    intro x
    cases field with
    | company => exact absurd rfl hf
    | email =>
        unfold isDuplicateMatch
        cases hid : x.id == lead.id
        · rfl
        · rfl
    | phone =>
        unfold isDuplicateMatch
        cases hid : x.id == lead.id
        · rfl
        · rfl
  unfold find_duplicates_for_lead
  rw [hsv]
  by_cases hempty : (leadElems field lead).isEmpty
  · rw [if_pos hempty]
    rw [List.isEmpty_iff] at hempty
    simp [hempty]
  · rw [if_neg hempty]
    rw [List.mem_filter, hmatch]
    simp only [Bool.and_eq_true, Bool.not_eq_true', beq_eq_false_iff_ne,
      List.any_eq_true, and_assoc]
    constructor
    · rintro ⟨hmem, hid, v, hv1, hv2⟩
      exact ⟨hmem, hid, v, hv1, List.elem_iff.mp hv2⟩
    · rintro ⟨hmem, hid, v, hv1, hv2⟩
      exact ⟨hmem, hid, v, hv1, List.elem_iff.mpr hv2⟩

/-- `merge_lead` issues no request on an empty duplicates list, confirmed
or not. -/
theorem merge_lead_nil (confirmed : Bool) (d : Lead) :
    merge_lead confirmed d [] = [] := by
  cases confirmed <;> rfl

/-- `merge_lead` issues no request when the confirmation flag is unset. -/
theorem merge_lead_false (d : Lead) (dups : List Lead) :
    merge_lead false d dups = [] := rfl

/-- The loop of `merge_lead` maps each source lead to its merge request. -/
theorem mergeLoop_eq_map (d : Lead) (dups : List Lead) :
    mergeLoop d dups = dups.map (fun s => ⟨s.id, d.id⟩) := by
  induction dups with
  | nil => rfl
  | cons s rest ih => simp [mergeLoop, ih]

/-- Equality of page states on everything except the merge-request trace. -/
def sameProgress (s t : PageState) : Prop :=
  s.leads_merged_this_page = t.leads_merged_this_page ∧
  s.duplicates_this_page = t.duplicates_this_page ∧
  s.total_leads_merged = t.total_leads_merged ∧
  s.finderCalls = t.finderCalls

/-- One loop-body step preserves `sameProgress`, for any two values of the
confirmation flag: the counters, the subsumed-id set and the finder trace
never depend on `--confirmed`. -/
theorem processLead_sameProgress (search : Lead → List Lead)
    (field : Comparator) (c₁ c₂ : Bool) (s t : PageState) (lead : Lead)
    (h : sameProgress s t) :
    sameProgress (processLead search field c₁ s lead)
      (processLead search field c₂ t lead) := by
  obtain ⟨h1, h2, h3, h4⟩ := h
  unfold processLead
  rw [h2]
  cases hmem : t.duplicates_this_page.contains lead.id
  · cases hemp : (find_duplicates_for_lead lead field (search lead)).isEmpty
    · simp [sameProgress, hemp, h1, h3, h4]
    · simp [sameProgress, hemp, h1, h3, h4]
  · simp [sameProgress, h1, h2, h3, h4]

/-- Folding the loop body over a page preserves `sameProgress` for any two
values of the confirmation flag. -/
theorem foldl_processLead_sameProgress (search : Lead → List Lead)
    (field : Comparator) (c₁ c₂ : Bool) (page : List Lead) :
    ∀ s t : PageState, sameProgress s t →
      sameProgress (page.foldl (processLead search field c₁) s)
        (page.foldl (processLead search field c₂) t) := by
  induction page with
  | nil => intro s t h; exact h
  | cons lead rest ih =>
      intro s t h
      exact ih _ _ (processLead_sameProgress search field c₁ c₂ s t lead h)

/-- Without `--confirmed` a loop-body step never adds a merge request. -/
theorem processLead_false_mergeCalls (search : Lead → List Lead)
    (field : Comparator) (st : PageState) (lead : Lead) :
    (processLead search field false st lead).mergeCalls = st.mergeCalls := by
  unfold processLead
  cases hmem : st.duplicates_this_page.contains lead.id
  · cases hemp : (find_duplicates_for_lead lead field (search lead)).isEmpty
    · simp [hemp, merge_lead_false]
    · simp [hemp]
  · simp

/-- Without `--confirmed`, processing a whole page issues no merge request. -/
theorem foldl_processLead_false_mergeCalls (search : Lead → List Lead)
    (field : Comparator) (page : List Lead) :
    ∀ st : PageState,
      (page.foldl (processLead search field false) st).mergeCalls
        = st.mergeCalls := by
  induction page with
  | nil => intro st; rfl
  | cons lead rest ih =>
      intro st
      rw [List.foldl_cons, ih, processLead_false_mergeCalls]

/-- Reading characters up to a double quote past a quote-free list returns
that list. -/
theorem takeWhile_append_quote (v : List Char) (h : '"' ∉ v) :
    (v ++ ['"']).takeWhile (fun c => c != '"') = v := by
  induction v with
  | nil => rfl
  | cons c cs ih =>
      have hc : c ≠ '"' := fun hcq => h (by rw [hcq]; exact List.mem_cons_self _ _)
      have hcs : '"' ∉ cs := fun hq => h (List.mem_cons_of_mem _ hq)
      rw [List.cons_append, List.takeWhile_cons]
      rw [show (c != '"') = true from by simpa using hc]
      rw [if_pos rfl, ih hcs]

/-! ## Claims -/

set_option maxRecDepth 200000

/-- C3: with the confirmation flag unset, `merge_lead` performs zero remote
mutation calls and returns immediately without contacting the store, for
every destination lead and every duplicates list of any size. -/
theorem c3_dry_run_no_mutation (destination_lead : Lead)
    (duplicates : List Lead) :
    merge_lead false destination_lead duplicates = [] := rfl

/-- C7: with the confirmation flag set, `merge_lead` issues exactly one merge
request per lead in the duplicates list, sequentially in list order, each
carrying that duplicate's id as the source and the destination lead's id as
the destination. -/
theorem c7_confirmed_one_request_per_duplicate (destination_lead : Lead)
    (duplicates : List Lead) :
    merge_lead true destination_lead duplicates
      = duplicates.map (fun s => ⟨s.id, destination_lead.id⟩) := by
  show mergeLoop destination_lead duplicates = _
  exact mergeLoop_eq_map destination_lead duplicates

/-- C4: when the comparison field is `company`, a lead returned by the store
is included in the returned duplicates iff its id differs from the input
lead's id and its company name, stripped and lower-cased, exactly equals the
input lead's stripped, lower-cased company name. -/
theorem c4_company_inclusion_iff (lead l : Lead) (results : List Lead)
    (h : l ∈ results) :
    l ∈ find_duplicates_for_lead lead .company results ↔
      (l.id ≠ lead.id ∧
        pyLower (pyStrip l.name) = pyLower (pyStrip lead.name)) := by
  rw [mem_find_duplicates_company]
  exact ⟨fun hx => ⟨hx.2.1, hx.2.2⟩, fun hx => ⟨h, hx.1, hx.2⟩⟩

/-- C4 witness: `ACME INC ` is reported as a duplicate of `Acme Inc`. -/
theorem c4_company_inclusion_iff_witness :
    leadB ∈ find_duplicates_for_lead leadA .company [leadA, leadB] :=
  (c4_company_inclusion_iff leadA leadB [leadA, leadB] (by decide)).mpr
    ⟨by decide, by decide⟩

/-- C5: when the comparison field is `email` or `phone`, a candidate lead
returned by the store is included in the returned duplicates iff its id
differs from the input lead's id and the candidate's element values share at
least one value with the input lead's element values — ANY-match, not
ALL-match. -/
theorem c5_element_inclusion_iff (lead l : Lead) (field : Comparator)
    (hf : field = .email ∨ field = .phone) (results : List Lead)
    (h : l ∈ results) :
    l ∈ find_duplicates_for_lead lead field results ↔
      (l.id ≠ lead.id ∧
        ∃ v ∈ leadElems field lead, v ∈ leadElems field l) := by
  have hf' : field ≠ .company := by
    rcases hf with h1 | h1 <;> rw [h1] <;> exact fun hc => Comparator.noConfusion hc
  rw [mem_find_duplicates_elems lead l field hf' results]
  exact ⟨fun hx => ⟨hx.2.1, hx.2.2⟩, fun hx => ⟨h, hx.1, hx.2⟩⟩

/-- C5 witness: leads sharing the single email `a@x.com` (with other
elements differing) are reported as duplicates. -/
theorem c5_element_inclusion_iff_witness :
    leadD ∈ find_duplicates_for_lead leadC .email [leadC, leadD] :=
  (c5_element_inclusion_iff leadC leadD .email (Or.inl rfl) [leadC, leadD]
      (by decide)).mpr
    ⟨by decide, ⟨"a@x.com", by decide, by decide⟩⟩

/-- C9: for two distinct leads whose stripped, lower-cased company names
agree, and any store that returns all leads matching the issued query (so
each lead appears in the results of the other's query), each is in the
other's returned duplicates — symmetry. -/
theorem c9_company_symmetry (L1 L2 : Lead) (r1 r2 : List Lead)
    (hid : L1.id ≠ L2.id)
    (hname : pyLower (pyStrip L1.name) = pyLower (pyStrip L2.name))
    (h1 : L2 ∈ r1) (h2 : L1 ∈ r2) :
    L2 ∈ find_duplicates_for_lead L1 .company r1 ∧
    L1 ∈ find_duplicates_for_lead L2 .company r2 :=
  ⟨(mem_find_duplicates_company L1 L2 r1).mpr
      ⟨h1, fun he => hid he.symm, hname.symm⟩,
   (mem_find_duplicates_company L2 L1 r2).mpr ⟨h2, hid, hname⟩⟩

/-- C9 witness: symmetry at `Acme Inc` / `ACME INC `. -/
theorem c9_company_symmetry_witness :
    leadB ∈ find_duplicates_for_lead leadA .company [leadA, leadB] ∧
    leadA ∈ find_duplicates_for_lead leadB .company [leadA, leadB] :=
  c9_company_symmetry leadA leadB [leadA, leadB] [leadA, leadB]
    (by decide) (by decide) (by decide) (by decide)

/-- C6: within a page, a lead whose id is in the subsumed set is skipped
(the state, hence both the finder trace and the merge trace, is unchanged);
the subsumed set starts empty at the page boundary; a not-yet-subsumed lead
is passed to the finder, its merge requests are appended, and every found
duplicate's id is in the subsumed set immediately afterwards. -/
theorem c6_subsumed_skip (search : Lead → List Lead) (field : Comparator)
    (confirmed : Bool) (pre : List Lead) (st : PageState) (lead : Lead)
    (_hst : st = List.foldl (processLead search field confirmed) initPageState pre) :
    initPageState.duplicates_this_page = [] ∧
    (st.duplicates_this_page.contains lead.id = true →
      processLead search field confirmed st lead = st) ∧
    (st.duplicates_this_page.contains lead.id = false →
      (processLead search field confirmed st lead).finderCalls
          = st.finderCalls ++ [lead.id] ∧
      (processLead search field confirmed st lead).mergeCalls
          = st.mergeCalls
            ++ merge_lead confirmed lead
                 (find_duplicates_for_lead lead field (search lead)) ∧
      ∀ d ∈ find_duplicates_for_lead lead field (search lead),
        d.id ∈ (processLead search field confirmed st lead).duplicates_this_page) := by
  refine ⟨rfl, ?_, ?_⟩
  · intro hmem
    unfold processLead
    rw [hmem, if_pos rfl]
  · intro hmem
    unfold processLead
    rw [hmem, if_neg Bool.false_ne_true]
    cases hemp : (find_duplicates_for_lead lead field (search lead)).isEmpty
    · simp only [hemp, Bool.false_eq_true, if_false]
      refine ⟨by trivial, by trivial, ?_⟩
      intro d hd
      exact List.mem_append_right _ (List.mem_map_of_mem _ hd)
    · rw [List.isEmpty_iff] at hemp
      simp [hemp, merge_lead_nil]

/-- C6 witness: in the page `[leadA, leadB]`, leadB (already subsumed as a
duplicate of leadA) is skipped, and leadA itself is passed to the finder. -/
theorem c6_subsumed_skip_witness :
    (processLead searchAB .company true
        (List.foldl (processLead searchAB .company true) initPageState [leadA])
        leadB
      = List.foldl (processLead searchAB .company true) initPageState [leadA]) ∧
    (processLead searchAB .company true initPageState leadA).finderCalls
      = initPageState.finderCalls ++ [leadA.id] := by
  constructor
  · exact (c6_subsumed_skip searchAB .company true [leadA] _ leadB rfl).2.1
      (by decide)
  · exact ((c6_subsumed_skip searchAB .company true [] initPageState leadA
      rfl).2.2 (by decide)).1

/-- C2 (code evaluation at the failing input): with two company-matching
leads where the earlier-created `leadA` has no opportunity and the
later-created `leadB` has one, the walker merges `leadB` into `leadA`: the
lead holding an opportunity is destroyed as the merge source, so the
destination is not chosen by opportunity priority. -/
theorem c2_code_merges_opportunity_holder_away :
    leadA.opportunities = [] ∧
    leadB.opportunities ≠ [] ∧
    leadA.date_created < leadB.date_created ∧
    (processPage searchAB .company true [leadA, leadB]).mergeCalls
      = [⟨leadB.id, leadA.id⟩] := by decide

/-- C1 (counterexample): a page of 50 leads in which one destination lead
survives and its 2 duplicates are removed (2 merge requests issued) gives a
per-page merged count of 3, and the next offset advances by 50 − 3 = 47 —
not by 50 − 2 as the claim states. -/
theorem c1_counterexample_offset_advances_by_47 :
    (processPage search50 .company true page50).mergeCalls.length = 2 ∧
    (processPage search50 .company true page50).leads_merged_this_page = 3 ∧
    advanceOffset 0 50
        (processPage search50 .company true page50).leads_merged_this_page
      = 50 - 3 ∧
    advanceOffset 0 50
        (processPage search50 .company true page50).leads_merged_this_page
      ≠ 50 - 2 := by decide

/-- C1 (amended): in that page of 50 leads, the per-page merged count counts
the 2 removed duplicates plus the surviving destination lead (2 + 1 = 3),
and the next fetch offset advances by 50 − 3, for any starting offset. -/
theorem c1_amended_offset_counts_destination (off : Int) :
    (processPage search50 .company true page50).leads_merged_this_page
      = 2 + 1 ∧
    advanceOffset off 50
        (processPage search50 .company true page50).leads_merged_this_page
      = off + (50 - 3) := by
  have h : (processPage search50 .company true page50).leads_merged_this_page
      = 3 := by decide
  refine ⟨h, ?_⟩
  rw [h]
  unfold advanceOffset
  norm_num

/-- C10: the per-page merged count, the subsumed-id set and the offset
advance `max(0, page_length − leads_merged_this_page)` are computed
identically whether or not the confirmation flag is set; in dry-run mode no
merge request is issued even though the counters advance. -/
theorem c10_pagination_independent_of_confirmation (search : Lead → List Lead)
    (field : Comparator) (page : List Lead) (off : Int) :
    (processPage search field true page).leads_merged_this_page
      = (processPage search field false page).leads_merged_this_page ∧
    (processPage search field true page).duplicates_this_page
      = (processPage search field false page).duplicates_this_page ∧
    (processPage search field false page).mergeCalls = [] ∧
    advanceOffset off page.length
        (processPage search field false page).leads_merged_this_page
      = off + max 0 ((page.length : Int)
          - ((processPage search field true page).leads_merged_this_page : Int)) := by
  obtain ⟨h1, h2, h3, h4⟩ := foldl_processLead_sameProgress search field
    true false page initPageState initPageState ⟨rfl, rfl, rfl, rfl⟩
  refine ⟨h1, h2, foldl_processLead_false_mergeCalls search field page initPageState, ?_⟩
  unfold processPage advanceOffset
  rw [h1]

/-- C8 (counterexample): the value `a"b` contains a double quote; the
constructed quoted token reads back as `a`, not as the original value, and
the single value `a", "b` produces the very same query value list as the two
values `a`, `b` — the query does not safely encode the original string. -/
theorem c8_counterexample_quote_not_escaped :
    readQuoted (quoteVal ['a', '"', 'b']) = some ['a'] ∧
    some ['a'] ≠ some ['a', '"', 'b'] ∧
    queryValues [['a', '"', ',', ' ', '"', 'b']] = queryValues [['a'], ['b']] ∧
    [['a', '"', ',', ' ', '"', 'b']] ≠ [['a'], ['b']] := by decide

/-- C8 (amended): values are interpolated verbatim between double quotes with
no escaping, so only a value containing no double quote is denoted exactly by
the token embedded in the query. -/
theorem c8_amended_quote_free_value_roundtrips (v : List Char)
    (h : '"' ∉ v) :
    readQuoted (quoteVal v) = some v := by
  show (if ('"' : Char) ∈ v ++ ['"'] then
      some ((v ++ ['"']).takeWhile (fun c => c != '"'))
    else none) = some v
  rw [if_pos (List.mem_append_right v (List.mem_singleton.mpr rfl))]
  rw [takeWhile_append_quote v h]

/-- C8 amended witness: the quote-free value `ab` round-trips. -/
theorem c8_amended_quote_free_value_roundtrips_witness :
    readQuoted (quoteVal ['a', 'b']) = some ['a', 'b'] :=
  c8_amended_quote_free_value_roundtrips ['a', 'b'] (by decide)

end MergeLeads
